import Mathlib

/-!
Verification of the session synchronization and notification core of the
`newhapi` repository, as a shallow embedding in Lean 4.

The embedding covers:
* the JSON-like payload values inspected by the event-parsing functions
  (`extractMessageEventType` in `hub/src/notifications/eventParsing.ts` and
  its near-duplicate in the server's notifications module);
* the message store operations `addMessage`, `getMaxSeq` and
  `mergeSessionMessages` (SQLite tables are modelled as lists of rows, SQL
  `UPDATE`s as list maps, `MAX(seq)` as a fold);
* the `Store.initSchema` bootstrap check (`server/src/store/index.ts`),
  with the database file abstracted to its `PRAGMA user_version` value and
  its set of user tables;
* the `NotificationHub` (server notifications module) as a discrete-event
  machine: `setTimeout` debounce timers become entries `(sessionId, fireTime)`
  in a map, and a run processes a time-ordered list of sync events, firing
  every due timer before each event (and all timers due by an explicit end
  time after the last event), which mirrors the single-threaded event loop.

Machine integers: all timestamps and sequence numbers are far below 2^53 in
the code's operating range, so they are modelled as `Nat`; the single
subtraction `now - last` is guarded in the code by `now` being a wall clock
that never decreases between the write and the read of the same map entry,
so `Nat` truncated subtraction agrees with JS number subtraction there
whenever the cooldown is positive.
-/

/-! ## JSON-like values

`JVal` models the JavaScript values that flow through the message payloads.
`undef` is JavaScript `undefined` (absent property), distinct from `null`.
-/

inductive JVal : Type where
  | undef : JVal
  | null : JVal
  | bool : Bool → JVal
  | num : Int → JVal
  | str : String → JVal
  | arr : List JVal → JVal
  | obj : List (String × JVal) → JVal

/-- `Boolean(value) && typeof value === 'object'`: true exactly for objects
and arrays (`typeof null` is `'object'` but `Boolean(null)` is `false`).
Modelled from the spec: the `isObject` helper imported from
`@hapi/protocol` is not under `src/`; it is modelled after the spec's
"structural pattern matches against a tagged-union-like envelope shape"
and is identical to the local `isObject` in the server's event-parsing
module (which is under `src/`). -/
def isObject : JVal → Bool
  | JVal.obj _ => true
  | JVal.arr _ => true
  | _ => false

/-- Property access `v[k]` on a JavaScript value: a missing key, or access on
a non-object, yields `undefined`. -/
def getField : JVal → String → JVal
  | JVal.obj fs, k =>
    match fs.find? (fun p => p.1 == k) with
    | some p => p.2
    | none => JVal.undef
  | _, _ => JVal.undef

/-- JavaScript nullish test: `v == null` is true exactly for `null` and
`undefined`. -/
def isNullish : JVal → Bool
  | JVal.null => true
  | JVal.undef => true
  | _ => false

/-! ## Sync events (as seen by the notification layer) -/

/-- The slice of a `StoredMessage` read by the notification layer: only
`content` is inspected (id, seq, createdAt, localId are never read there). -/
structure StoredMessageV where
  content : JVal

/-- A `SyncEvent` as inspected by the event-parsing functions and the
notification hub: its `type` tag, its `sessionId`, an optional carried
message, and a possible top-level `data` field (absent = `undef`; only the
server-side parser ever reads it). -/
structure SyncEvent where
  type : String
  sessionId : Option String
  message : Option StoredMessageV
  data : JVal

/-! ## Event parsing

`extractEventEnvelope` / `extractMessageEventType` from
`hub/src/notifications/eventParsing.ts`, and the server-side near-duplicate
which additionally falls back to the event's top-level `data` field
(`event.message?.content ?? event.data`).
-/

/-- The strict comparison `v === 'event'` on a JavaScript value. -/
def isEventTypeTag : JVal → Bool
  | JVal.str s => s == "event"
  | _ => false

/-- `extractEventEnvelope` (identical in both copies): the message itself if
it is an object with `type === 'event'`, else its `content` field if that is
such an object, else `null`. -/
def extractEventEnvelope (message : JVal) : Option JVal :=
  if ¬ isObject message then none
  else if isEventTypeTag (getField message "type") then some message
  else
    let content := getField message "content"
    if ¬ isObject content then none
    else if isEventTypeTag (getField content "type") then some content
    else none

/-- Shared tail of both parser copies: take `envelope.data` when it is an
object, and return its `type` field exactly when that is a string. -/
def envelopeDataType (envelope : JVal) : Option String :=
  let d := getField envelope "data"
  if isObject d then
    match getField d "type" with
    | JVal.str t => some t
    | _ => none
  else none

/-- `extractMessageEventType` from `hub/src/notifications/eventParsing.ts`:
works on `event.message?.content` with no fallback. -/
def extractMessageEventType (e : SyncEvent) : Option String :=
  if e.type = "message-received" then
    let message : JVal :=
      match e.message with
      | some m => m.content
      | none => JVal.undef
    match extractEventEnvelope message with
    | some envelope => envelopeDataType envelope
    | none => none
  else none

/-- The server-side `extractMessageEventType` (near-duplicate): reads
`event.message?.content ?? event.data`, so a nullish or missing message
content falls back to the event's top-level `data` field. -/
def extractMessageEventTypeServer (e : SyncEvent) : Option String :=
  if e.type = "message-received" then
    let base : JVal :=
      match e.message with
      | some m => m.content
      | none => JVal.undef
    let message : JVal := if isNullish base then e.data else base
    match extractEventEnvelope message with
    | some envelope => envelopeDataType envelope
    | none => none
  else none

/-! Specification-side restatement of the parsing contract, following the
claim's wording: the result is non-null exactly when the event is a
`message-received` whose content is a direct event envelope or a role-style
wrapper around one, and the envelope's `data` is an object with a string
`type`. Used only to compare with the implementation. -/

/-- The claim's "envelope of shape `{type: 'event', data}`": an object whose
`type` field is the string `'event'`. -/
def isEnvelopeShape (v : JVal) : Bool :=
  isObject v && isEventTypeTag (getField v "type")

/-- The claim's envelope selection: the content itself when it has envelope
shape, else its `content` field when the content is an object and that inner
field has envelope shape. -/
def specEnvelope (content : JVal) : Option JVal :=
  if isEnvelopeShape content then some content
  else if isObject content && isEnvelopeShape (getField content "content") then
    some (getField content "content")
  else none

/-- The claim's description of the whole extraction, assembled from
`specEnvelope` and the `data.type` rule. -/
def specExtractMessageEventType (e : SyncEvent) : Option String :=
  if e.type = "message-received" then
    let content : JVal :=
      match e.message with
      | some m => m.content
      | none => JVal.undef
    match specEnvelope content with
    | some envelope =>
      let d := getField envelope "data"
      if isObject d then
        match getField d "type" with
        | JVal.str t => some t
        | _ => none
      else none
    | none => none
  else none

/-! ## Message store

Rows of the `messages` table. `content` holds the already-serialized JSON
text (the store serializes with `JSON.stringify` before insert), `local_id`
is the nullable idempotency key.
-/

structure MsgRow where
  id : String
  session_id : String
  content : String
  created_at : Nat
  seq : Nat
  local_id : Option String
deriving DecidableEq

/-- `SELECT COALESCE(MAX(seq), 0) FROM messages WHERE session_id = ?`. -/
def getMaxSeq (db : List MsgRow) (sid : String) : Nat :=
  ((db.filter (fun r => r.session_id == sid)).map (fun r => r.seq)).foldr max 0

/-- The seq values of a session's rows, in row order. -/
def seqsOf (db : List MsgRow) (sid : String) : List Nat :=
  (db.filter (fun r => r.session_id == sid)).map (fun r => r.seq)

/-- JavaScript truthiness of the optional `localId` argument: `if (localId)`
is false for `undefined` and for the empty string. -/
def localIdTruthy : Option String → Bool
  | some l => l ≠ ""
  | none => false

/-- `addMessage` from the hub message store. The SQLite side effects are made
explicit: `freshId` stands for the generated `randomUUID()`, `now` for
`Date.now()`. The result is `none` when the INSERT would violate the
`messages` primary key or the partial unique index on
`(session_id, local_id) WHERE local_id IS NOT NULL`, or when the re-select
of the inserted row fails (`throw new Error('Failed to create message')`);
otherwise it is the new table contents and the returned stored message. -/
def addMessage (db : List MsgRow) (freshId : String) (now : Nat)
    (sessionId : String) (content : String) (localId : Option String) :
    Option (List MsgRow × MsgRow) :=
  let dedup : Option MsgRow :=
    if localIdTruthy localId then
      db.find? (fun r => r.session_id == sessionId && r.local_id == localId)
    else none
  match dedup with
  | some existing => some (db, existing)
  | none =>
    let msgSeq := getMaxSeq db sessionId + 1
    let row : MsgRow :=
      { id := freshId, session_id := sessionId, content := content,
        created_at := now, seq := msgSeq, local_id := localId }
    if db.any (fun r => r.id == freshId) then none
    else if (match localId with
             | some l => db.any (fun r => r.session_id == sessionId && r.local_id == some l)
             | none => false) then none
    else
      let db' := db ++ [row]
      match db'.find? (fun r => r.id == freshId) with
      | some stored => some (db', stored)
      | none => none

/-- `UPDATE messages SET seq = seq + k WHERE session_id = toId`, one row. -/
def shiftTo (toId : String) (k : Nat) (r : MsgRow) : MsgRow :=
  if r.session_id = toId then { r with seq := r.seq + k } else r

/-- The `INTERSECT` collision query of `mergeSessionMessages`: local ids that
are non-null on some row of `toId` and non-null on some row of `fromId`. -/
def collidingLocalIds (db : List MsgRow) (toId fromId : String) : List String :=
  (db.filterMap (fun r => if r.session_id = toId then r.local_id else none)).filter
    (fun l => db.any (fun r => r.session_id == fromId && r.local_id == some l))

/-- `mergeSessionMessages` from the hub message store. Returns the new table
contents together with `{moved, oldMaxSeq, newMaxSeq}`. The transaction
cannot fail in the pure model, so the committed state is returned directly;
`oldMaxSeq` is the moved (`from`) session's max and `newMaxSeq` the target
(`to`) session's max, as in the source. -/
def mergeSessionMessages (db : List MsgRow) (fromSessionId toSessionId : String) :
    List MsgRow × Nat × Nat × Nat :=
  if fromSessionId = toSessionId then (db, 0, 0, 0)
  else
    let oldMaxSeq := getMaxSeq db fromSessionId
    let newMaxSeq := getMaxSeq db toSessionId
    let db1 := if newMaxSeq > 0 ∧ oldMaxSeq > 0 then
        db.map (shiftTo toSessionId oldMaxSeq)
      else db
    let collisions := collidingLocalIds db1 toSessionId fromSessionId
    let db2 := if collisions.isEmpty then db1
      else db1.map (fun r =>
        if r.session_id == fromSessionId &&
            (match r.local_id with
             | some l => collisions.contains l
             | none => false) then
          { r with local_id := none }
        else r)
    let moved := (db2.filter (fun r => r.session_id == fromSessionId)).length
    let db3 := db2.map (fun r =>
      if r.session_id = fromSessionId then { r with session_id := toSessionId } else r)
    (db3, moved, oldMaxSeq, newMaxSeq)

/-- The expected per-row effect of `mergeSessionMessages db A B` when A's
seqs are 1..m (claim side, for the amended C1): a row of session A keeps its
seq, moves under B, and loses its local id exactly when some row of B carries
the same one; a row of session B keeps everything but has its seq shifted up
by m; all other rows are untouched. -/
def mergeRelabel (db : List MsgRow) (A B : String) (m : Nat) (r : MsgRow) : MsgRow :=
  if r.session_id = A then
    { r with session_id := B,
             local_id := match r.local_id with
               | some l =>
                 if db.any (fun r2 => r2.session_id == B && r2.local_id == some l)
                 then none else some l
               | none => none }
  else if r.session_id = B then { r with seq := r.seq + m }
  else r

/-! ## Store schema bootstrap (`server/src/store/index.ts`) -/

def SCHEMA_VERSION : Nat := 1

def REQUIRED_TABLES : List String :=
  ["sessions", "machines", "messages", "users", "push_subscriptions"]

/-- A database file, abstracted to its `PRAGMA user_version` stamp and the
names of its user tables (`sqlite_*` tables excluded, as in
`hasAnyUserTables`). -/
structure DbFile where
  userVersion : Nat
  tables : List String
deriving DecidableEq

/-- The remediation sentence shared by both fatal schema errors. -/
def remediationText : String :=
  "Back up and rebuild the database, or run an offline migration to the expected schema version."

/-- `buildSchemaMismatchError`, with the location resolution of the source. -/
def buildSchemaMismatchError (dbPath : String) (currentVersion : Nat) : String :=
  let location := if dbPath = ":memory:" ∨ dbPath.startsWith "file::memory:"
    then "in-memory database" else dbPath
  "SQLite schema version mismatch for " ++ location ++ ". " ++
    "Expected " ++ toString SCHEMA_VERSION ++ ", found " ++ toString currentVersion ++ ". " ++
    "This build does not run compatibility migrations. " ++ remediationText

/-- `assertRequiredTablesPresent`. -/
def assertRequiredTablesPresent (tables : List String) : Except String Unit :=
  let missing := REQUIRED_TABLES.filter (fun t => ¬ tables.contains t)
  if missing.isEmpty then Except.ok ()
  else Except.error
    ("SQLite schema is missing required tables (" ++ String.intercalate ", " missing ++ "). " ++
      remediationText)

/-- `Store.initSchema`: version 0 means unstamped — an empty file receives
the full schema, a file that already has user tables is adopted and stamped
as-is; a stamped file must match `SCHEMA_VERSION` exactly and then must still
contain every required table. -/
def initSchema (dbPath : String) (db : DbFile) : Except String DbFile :=
  if db.userVersion = 0 then
    if ¬ db.tables.isEmpty then
      Except.ok { db with userVersion := SCHEMA_VERSION }
    else
      Except.ok { userVersion := SCHEMA_VERSION, tables := REQUIRED_TABLES }
  else if db.userVersion ≠ SCHEMA_VERSION then
    Except.error (buildSchemaMismatchError dbPath db.userVersion)
  else
    (assertRequiredTablesPresent db.tables).map (fun _ => db)

/-! ## Notification hub (server notifications module)

The hub's three per-session maps become association lists (JavaScript `Map`
keeps insertion order; `set` overwrites in place, which is what
cancel-and-replace of a debounce timer amounts to). A pending `setTimeout`
handle becomes the absolute time at which the timer is due. A run processes
a time-ordered list of sync events; before each event, and once after the
last event up to an explicit end of observation, every due timer fires (the
event loop runs a timer callback as soon as its deadline has passed).
-/

/-- Association-list lookup (`Map.get`). -/
def alookup {α : Type} (m : List (String × α)) (k : String) : Option α :=
  (m.find? (fun p => p.1 == k)).map (fun p => p.2)

/-- Association-list insert (`Map.set`): overwrite in place if present,
append otherwise. -/
def ainsert {α : Type} (m : List (String × α)) (k : String) (v : α) :
    List (String × α) :=
  if m.any (fun p => p.1 == k) then
    m.map (fun p => if p.1 == k then (k, v) else p)
  else m ++ [(k, v)]

/-- Association-list removal (`Map.delete`). -/
def aerase {α : Type} (m : List (String × α)) (k : String) : List (String × α) :=
  m.filter (fun p => ¬ p.1 == k)

/-- The slice of the sync engine's `Session` read by the hub: its id, the
`active` flag, and `agentState.requests` reduced to the list of pending
request ids (`Object.keys(requests)`); `none` models a null/undefined
`agentState` or `requests`. All other session fields are carried opaquely
by notifications and never branched on, so they are omitted. -/
structure SessionV where
  id : String
  active : Bool
  requests : Option (List String)
deriving DecidableEq

/-- `session.agentState?.requests` reduced to its key set (`requests == null`
is the nullish test covering both a null `agentState` and a missing
`requests`). -/
def sessionRequests (s : SessionV) : Option (List String) := s.requests

/-- The hub's per-session mutable state. -/
structure HubState where
  lastKnownRequests : List (String × List String)
  notificationDebounce : List (String × Nat)
  lastReadyNotificationAt : List (String × Nat)
deriving DecidableEq

def HubState.initial : HubState := ⟨[], [], []⟩

/-- `clearSessionState`. -/
def clearSessionState (σ : HubState) (sid : String) : HubState :=
  { lastKnownRequests := aerase σ.lastKnownRequests sid,
    notificationDebounce := aerase σ.notificationDebounce sid,
    lastReadyNotificationAt := aerase σ.lastReadyNotificationAt sid }

inductive NKind : Type where
  | permission
  | ready
deriving DecidableEq

/-- One channel invocation: which channel, which kind, at what absolute time,
with which (freshly fetched) session. -/
structure Notif where
  time : Nat
  channel : String
  kind : NKind
  session : SessionV
deriving DecidableEq

/-- The sync engine as seen by the hub: `engine t sid` is what
`syncEngine.getSession(sid)` returns at absolute time `t`. -/
def Engine : Type := Nat → String → Option SessionV

/-- Membership test on a list of request ids (`Set.has`). -/
def memb (l : List String) (x : String) : Bool :=
  l.any (fun y => y == x)

/-- `checkForPermissionNotification`: on a null/undefined `requests` return
without touching anything; otherwise always record the current id set, and
when some id is new, cancel-and-replace the session's debounce timer with one
due at `t + debounceMs`. Emits nothing by itself. -/
def checkForPermissionNotification (debounceMs : Nat) (t : Nat) (s : SessionV)
    (σ : HubState) : HubState :=
  match sessionRequests s with
  | none => σ
  | some newRequestIds =>
    let oldRequestIds := (alookup σ.lastKnownRequests s.id).getD []
    let hasNewRequests := newRequestIds.any (fun rid => ¬ memb oldRequestIds rid)
    let σ1 := { σ with lastKnownRequests := ainsert σ.lastKnownRequests s.id newRequestIds }
    if hasNewRequests then
      { σ1 with notificationDebounce := ainsert σ1.notificationDebounce s.id (t + debounceMs) }
    else σ1

/-- `sendReadyNotification`: re-fetch the session, require it active, drop
silently within the cooldown, else record `now` and invoke `sendReady` on
every channel in order. -/
def sendReadyNotificationStep (engine : Engine) (channels : List String)
    (cooldownMs : Nat) (t : Nat) (sid : String) (σ : HubState) :
    HubState × List Notif :=
  match engine t sid with
  | none => (σ, [])
  | some s =>
    if ¬ s.active then (σ, [])
    else
      let last := (alookup σ.lastReadyNotificationAt sid).getD 0
      if t - last < cooldownMs then (σ, [])
      else
        ({ σ with lastReadyNotificationAt := ainsert σ.lastReadyNotificationAt sid t },
          channels.map (fun c => ⟨t, c, NKind.ready, s⟩))

/-- JavaScript truthiness of `event.sessionId`. -/
def sidTruthy : Option String → Bool
  | some s => s ≠ ""
  | none => false

/-- `handleSyncEvent`, at absolute time `t`. -/
def stepEvent (engine : Engine) (channels : List String)
    (debounceMs cooldownMs : Nat) (t : Nat) (e : SyncEvent) (σ : HubState) :
    HubState × List Notif :=
  if (e.type = "session-updated" ∨ e.type = "session-added") ∧ sidTruthy e.sessionId then
    let sid := e.sessionId.getD ""
    match engine t sid with
    | none => (clearSessionState σ sid, [])
    | some s =>
      if ¬ s.active then (clearSessionState σ sid, [])
      else (checkForPermissionNotification debounceMs t s σ, [])
  else if e.type = "session-removed" ∧ sidTruthy e.sessionId then
    (clearSessionState σ (e.sessionId.getD ""), [])
  else if e.type = "message-received" ∧ sidTruthy e.sessionId then
    if extractMessageEventTypeServer e = some "ready" then
      sendReadyNotificationStep engine channels cooldownMs t (e.sessionId.getD "") σ
    else (σ, [])
  else (σ, [])

/-- The body of a debounce timer callback: the map entry is already removed;
re-fetch the session at fire time and, when it is still active, invoke
`sendPermissionRequest` on every channel in order. -/
def fireTimer (engine : Engine) (channels : List String) (sid : String)
    (fireTime : Nat) : List Notif :=
  match engine fireTime sid with
  | none => []
  | some s =>
    if s.active then channels.map (fun c => ⟨fireTime, c, NKind.permission, s⟩)
    else []

/-- Fire every debounce timer due by `upTo` and drop them from the map. A
permission fire never schedules a new timer, so one sweep settles the map. -/
def fireDue (engine : Engine) (channels : List String) (upTo : Nat)
    (σ : HubState) : HubState × List Notif :=
  let due := σ.notificationDebounce.filter (fun p => p.2 ≤ upTo)
  ({ σ with notificationDebounce := σ.notificationDebounce.filter (fun p => ¬ p.2 ≤ upTo) },
    (due.map (fun p => fireTimer engine channels p.1 p.2)).flatten)

/-- Run the hub over a time-ordered list of sync events, then let every
timer due by `endTime` fire. Produces the final state and the full list of
channel invocations. -/
def runEvents (engine : Engine) (channels : List String)
    (debounceMs cooldownMs endTime : Nat) :
    List (Nat × SyncEvent) → HubState → HubState × List Notif
  | [], σ => fireDue engine channels endTime σ
  | (t, e) :: rest, σ =>
    let d := fireDue engine channels t σ
    let s := stepEvent engine channels debounceMs cooldownMs t e d.1
    let r := runEvents engine channels debounceMs cooldownMs endTime rest s.1
    (r.1, d.2 ++ s.2 ++ r.2)

/-- A `session-updated` sync event. -/
def updEvent (sid : String) : SyncEvent :=
  ⟨"session-updated", some sid, none, JVal.undef⟩

/-- A `session-removed` sync event. -/
def rmEvent (sid : String) : SyncEvent :=
  ⟨"session-removed", some sid, none, JVal.undef⟩

/-- The message content of a direct `ready` event envelope, as built by the
agent loop: `{type: 'event', data: {type: 'ready'}}`. -/
def readyContent : JVal :=
  JVal.obj [("type", JVal.str "event"), ("data", JVal.obj [("type", JVal.str "ready")])]

/-- A `message-received` sync event carrying a `ready` event envelope. -/
def readyEvent (sid : String) : SyncEvent :=
  ⟨"message-received", some sid, some ⟨readyContent⟩, JVal.undef⟩

/-- The last element of the nonempty time list `t1 :: rest`. -/
def lastTime (t1 : Nat) (rest : List Nat) : Nat :=
  rest.getLast?.getD t1

/-! ## Helper lemmas -/

theorem foldr_max_init (xs : List Nat) (b : Nat) :
    xs.foldr max b = max b (xs.foldr max 0) := by
  induction xs with
  | nil => simp
  | cons x xs ih => simp [List.foldr_cons, ih, Nat.max_comm, Nat.max_left_comm]

theorem foldr_max_range' (s n : Nat) :
    (List.range' s (n + 1)).foldr max 0 = s + n := by
  induction n generalizing s with
  | zero => simp [List.range']
  | succ n ih =>
    rw [List.range'_succ, List.foldr_cons, ih (s + 1)]
    omega

theorem getMaxSeq_of_perm (db : List MsgRow) (sid : String) (m : Nat)
    (hm : 1 ≤ m) (h : (seqsOf db sid).Perm (List.range' 1 m)) :
    getMaxSeq db sid = m := by
  have : getMaxSeq db sid = (seqsOf db sid).foldr max 0 := rfl
  rw [this, h.foldr_eq]
  obtain ⟨k, rfl⟩ : ∃ k, m = k + 1 := ⟨m - 1, by omega⟩
  rw [foldr_max_range']
  omega

theorem getMaxSeq_append_row (db : List MsgRow) (sid : String) (r : MsgRow)
    (hr : r.session_id = sid) :
    getMaxSeq (db ++ [r]) sid = max (getMaxSeq db sid) r.seq := by
  unfold getMaxSeq
  rw [List.filter_append, List.map_append, List.foldr_append, foldr_max_init]
  simp [hr, Nat.max_comm]

theorem isNullish_false_of_ne (v : JVal) (h1 : v ≠ JVal.null) (h2 : v ≠ JVal.undef) :
    isNullish v = false := by
  cases v <;> simp_all [isNullish]

theorem extractEventEnvelope_eq_specEnvelope (m : JVal) :
    extractEventEnvelope m = specEnvelope m := by
  unfold extractEventEnvelope specEnvelope isEnvelopeShape
  cases hm : isObject m with
  | false => simp [hm]
  | true =>
    cases ht : isEventTypeTag (getField m "type") with
    | true => simp [hm, ht]
    | false =>
      cases hc : isObject (getField m "content") with
      | false => simp [hm, ht, hc]
      | true =>
        cases htc : isEventTypeTag (getField (getField m "content") "type") with
        | true => simp [hm, ht, hc, htc]
        | false => simp [hm, ht, hc, htc]

/-! ## Claim theorems: event parsing -/

/-- C7: `extractMessageEventType` is a total function (it is defined by
structural pattern matching on the payload, so no input can make it throw),
and on every event it computes exactly the claim's case analysis: `null`
unless the event is a `message-received` whose content is a direct event
envelope or a wrapper whose inner `content` is one, in which case the result
is the envelope's `data.type` exactly when `data` is an object with a string
`type` field, else `null`. -/
theorem extractMessageEventType_characterized (e : SyncEvent) :
    extractMessageEventType e = specExtractMessageEventType e := by
  unfold extractMessageEventType specExtractMessageEventType
  by_cases ht : e.type = "message-received"
  · simp only [ht, if_pos]
    rw [extractEventEnvelope_eq_specEnvelope]
    cases specEnvelope (match e.message with
      | some m => m.content
      | none => JVal.undef) with
    | none => rfl
    | some envelope => simp [envelopeDataType]
  · simp [ht]

/-- C8: the hub-side and server-side copies of `extractMessageEventType`
agree on every `message-received` event whose message content is present
(neither null nor undefined); whenever they disagree, the event's message
content was absent or nullish and the hub-side copy returned `null` (the
server-side copy having fallen back to the event's top-level `data` field).
-/
theorem extractMessageEventType_copies_agree (e : SyncEvent) :
    ((∃ mv, e.message = some mv ∧ mv.content ≠ JVal.null ∧ mv.content ≠ JVal.undef) →
      extractMessageEventType e = extractMessageEventTypeServer e)
    ∧ (extractMessageEventType e ≠ extractMessageEventTypeServer e →
        extractMessageEventType e = none ∧
          (e.message = none ∨
            ∃ mv, e.message = some mv ∧
              (mv.content = JVal.null ∨ mv.content = JVal.undef))) := by
  constructor
  · rintro ⟨mv, hmv, h1, h2⟩
    unfold extractMessageEventType extractMessageEventTypeServer
    rw [hmv]
    simp [isNullish_false_of_ne mv.content h1 h2]
  · intro hne
    by_cases ht : e.type = "message-received"
    · cases hm : e.message with
      | none =>
        refine ⟨?_, Or.inl rfl⟩
        unfold extractMessageEventType
        rw [hm]
        simp [ht, extractEventEnvelope, isObject]
      | some mv =>
        by_cases hnl : mv.content = JVal.null ∨ mv.content = JVal.undef
        · refine ⟨?_, Or.inr ⟨mv, rfl, hnl⟩⟩
          unfold extractMessageEventType
          rw [hm]
          rcases hnl with h | h <;>
            simp [ht, h, extractEventEnvelope, isObject]
        · push_neg at hnl
          exfalso
          apply hne
          unfold extractMessageEventType extractMessageEventTypeServer
          rw [hm]
          simp [isNullish_false_of_ne mv.content hnl.1 hnl.2]
    · exfalso
      apply hne
      unfold extractMessageEventType extractMessageEventTypeServer
      simp [ht]

/-- C8 witness: at the repository's own role-wrapped ready event both copies
return `some "ready"`. -/
theorem extractMessageEventType_copies_agree_witness :
    (∃ mv, (SyncEvent.mk "message-received" (some "s1")
        (some ⟨JVal.obj [("role", JVal.str "agent"), ("content", readyContent)]⟩)
        JVal.undef).message = some mv ∧
        mv.content ≠ JVal.null ∧ mv.content ≠ JVal.undef)
    ∧ extractMessageEventType (SyncEvent.mk "message-received" (some "s1")
        (some ⟨JVal.obj [("role", JVal.str "agent"), ("content", readyContent)]⟩)
        JVal.undef) =
      extractMessageEventTypeServer (SyncEvent.mk "message-received" (some "s1")
        (some ⟨JVal.obj [("role", JVal.str "agent"), ("content", readyContent)]⟩)
        JVal.undef) :=
  ⟨⟨⟨JVal.obj [("role", JVal.str "agent"), ("content", readyContent)]⟩, rfl, by simp, by simp⟩,
    (extractMessageEventType_copies_agree _).1
      ⟨⟨JVal.obj [("role", JVal.str "agent"), ("content", readyContent)]⟩, rfl, by simp, by simp⟩⟩

/-! ## Claim theorems: message store and merge -/

/-- C10: merging a session into itself is a no-op: the early-out returns
`{moved: 0, oldMaxSeq: 0, newMaxSeq: 0}` and the message table is untouched.
-/
theorem mergeSessionMessages_self_noop (db : List MsgRow) (x : String) :
    mergeSessionMessages db x x = (db, 0, 0, 0) := by
  simp [mergeSessionMessages]

/-- C1 counterexample: with one message in session A (seq 1) and one in
session B (seq 1), the claim demands that after `mergeSessionMessages(A, B)`
B's message keep seq 1 and A's message occupy seq n+1 = 2; the code instead
leaves A's message at seq 1 and shifts B's message to seq 2. -/
theorem mergeSessionMessages_append_claim_false :
    (((mergeSessionMessages
        [⟨"a1", "A", "c", 0, 1, none⟩, ⟨"b1", "B", "c", 0, 1, none⟩] "A" "B").1.find?
        (fun r => r.id == "a1")).map (fun r => r.seq) = some 1)
    ∧ (((mergeSessionMessages
        [⟨"a1", "A", "c", 0, 1, none⟩, ⟨"b1", "B", "c", 0, 1, none⟩] "A" "B").1.find?
        (fun r => r.id == "b1")).map (fun r => r.seq) = some 2)
    ∧ ¬ ((((mergeSessionMessages
        [⟨"a1", "A", "c", 0, 1, none⟩, ⟨"b1", "B", "c", 0, 1, none⟩] "A" "B").1.find?
        (fun r => r.id == "a1")).map (fun r => r.seq) = some 2)
        ∧ (((mergeSessionMessages
        [⟨"a1", "A", "c", 0, 1, none⟩, ⟨"b1", "B", "c", 0, 1, none⟩] "A" "B").1.find?
        (fun r => r.id == "b1")).map (fun r => r.seq) = some 1)) := by
  decide

theorem contains_iff_mem_str (l : List String) (a : String) :
    l.contains a = true ↔ a ∈ l := by
  simp [List.contains_eq_any_beq, List.any_eq_true]

/-! ## Claim theorems: schema bootstrap -/

/-- C9 counterexample: a database file whose stored schema version (0)
differs from the expected version and which is missing every required table
is nevertheless opened successfully: `initSchema` stamps it and returns
without error, because a version-0 file with any user table is adopted as a
legacy database with no table check. -/
theorem initSchema_adopts_unstamped_file :
    initSchema "p" (DbFile.mk 0 ["legacy"]) = Except.ok (DbFile.mk 1 ["legacy"])
    ∧ (DbFile.mk 0 ["legacy"]).userVersion ≠ SCHEMA_VERSION
    ∧ "sessions" ∈ REQUIRED_TABLES
    ∧ "sessions" ∉ (DbFile.mk 0 ["legacy"]).tables := by
  refine ⟨rfl, by decide, by decide, by decide⟩

/-- C9 (amended): for every database file that has been stamped (nonzero
stored version), `initSchema` throws — with an error message naming the
offline remediation — whenever the stored version differs from
`SCHEMA_VERSION` and whenever a required table is missing, and it returns
successfully only on a database with the expected version and all required
tables, which it leaves unchanged; a version-0 file is instead treated as
unstamped and initialized or adopted. -/
theorem buildSchemaMismatchError_suffix (p : String) (v : Nat) :
    ∃ pre, buildSchemaMismatchError p v = pre ++ remediationText := by
  unfold buildSchemaMismatchError
  exact ⟨_, rfl⟩

theorem requiredTables_filter_isEmpty (tables : List String) :
    (REQUIRED_TABLES.filter (fun t => ¬ tables.contains t)).isEmpty = true ↔
      ∀ t ∈ REQUIRED_TABLES, t ∈ tables := by
  rw [List.isEmpty_iff, List.filter_eq_nil_iff]
  constructor
  · intro h t ht
    have := h t ht
    simp only [decide_eq_true_eq, Decidable.not_not] at this
    exact (contains_iff_mem_str _ _).1 this
  · intro h t ht
    simp only [decide_eq_true_eq, Decidable.not_not]
    exact (contains_iff_mem_str _ _).2 (h t ht)

theorem initSchema_stamped_branch (p : String) (db : DbFile)
    (h0 : db.userVersion ≠ 0) (hv : db.userVersion = SCHEMA_VERSION) :
    initSchema p db =
      if (REQUIRED_TABLES.filter (fun t => ¬ db.tables.contains t)).isEmpty
      then Except.ok db
      else Except.error ("SQLite schema is missing required tables (" ++
        String.intercalate ", "
          (REQUIRED_TABLES.filter (fun t => ¬ db.tables.contains t)) ++
        "). " ++ remediationText) := by
  simp only [initSchema, assertRequiredTablesPresent]
  rw [if_neg h0, if_neg (by simp [hv])]
  cases he : (REQUIRED_TABLES.filter (fun t => ¬ db.tables.contains t)).isEmpty <;>
    simp [he, Except.map]

/-- C9 (amended): for every database file that has been stamped (nonzero
stored version), `initSchema` throws — with an error message naming the
offline remediation — whenever the stored version differs from
`SCHEMA_VERSION` and whenever a required table is missing, and it returns
successfully only on a database with the expected version and all required
tables, which it leaves unchanged; a version-0 file is instead treated as
unstamped and initialized or adopted. -/
theorem initSchema_fail_fast (p : String) (db : DbFile) (h0 : db.userVersion ≠ 0) :
    ((db.userVersion ≠ SCHEMA_VERSION ∨ ∃ t ∈ REQUIRED_TABLES, t ∉ db.tables) →
      ∃ msg pre, initSchema p db = Except.error msg ∧ msg = pre ++ remediationText)
    ∧ (∀ db2, initSchema p db = Except.ok db2 →
        db.userVersion = SCHEMA_VERSION ∧ (∀ t ∈ REQUIRED_TABLES, t ∈ db.tables) ∧
          db2 = db) := by
  by_cases hv : db.userVersion = SCHEMA_VERSION
  · have hbranch := initSchema_stamped_branch p db h0 hv
    constructor
    · rintro (h | ⟨t, htR, htT⟩)
      · exact absurd hv h
      · have he : (REQUIRED_TABLES.filter (fun t => ¬ db.tables.contains t)).isEmpty = false := by
          cases he : (REQUIRED_TABLES.filter (fun t => ¬ db.tables.contains t)).isEmpty
          · rfl
          · exact absurd ((requiredTables_filter_isEmpty db.tables).1 he t htR) htT
        rw [hbranch, if_neg (by rw [he]; simp)]
        exact ⟨_, _, rfl, rfl⟩
    · intro db2 hok
      rw [hbranch] at hok
      cases he : (REQUIRED_TABLES.filter (fun t => ¬ db.tables.contains t)).isEmpty
      · rw [if_neg (by rw [he]; simp)] at hok
        exact absurd hok (by simp)
      · rw [if_pos he] at hok
        have hdb2 : db = db2 := by
          injection hok
        exact ⟨hv, (requiredTables_filter_isEmpty db.tables).1 he, hdb2.symm⟩
  · have hmsg : initSchema p db = Except.error (buildSchemaMismatchError p db.userVersion) := by
      simp only [initSchema]
      rw [if_neg h0, if_pos hv]
    obtain ⟨pre, hpre⟩ := buildSchemaMismatchError_suffix p db.userVersion
    constructor
    · intro _
      exact ⟨_, pre, hmsg, hpre⟩
    · intro db2 hok
      rw [hmsg] at hok
      exact absurd hok (by simp)

/-- C9 witness: a stamped file with version 2 and no tables is refused with
a message ending in the remediation sentence. -/
theorem initSchema_fail_fast_witness :
    (DbFile.mk 2 []).userVersion ≠ 0 ∧
    ∃ msg pre, initSchema ":memory:" (DbFile.mk 2 []) = Except.error msg ∧
      msg = pre ++ remediationText :=
  ⟨by decide,
    (initSchema_fail_fast ":memory:" (DbFile.mk 2 []) (by decide)).1 (Or.inl (by decide))⟩

/-- C6: with a non-empty `localId` and no prior row for `(sessionId, localId)`,
the first `addMessage` inserts a row with the next seq, and a second call with
the same `(sessionId, localId)` — any content, id or timestamp — returns the
very same stored message and leaves the table unchanged, so the session's max
seq advances exactly once. -/
theorem addMessage_idempotent (db : List MsgRow) (sid l : String) (hl : l ≠ "")
    (id1 : String) (now1 : Nat) (c1 : String)
    (hnodup : ∀ r ∈ db, ¬ (r.session_id = sid ∧ r.local_id = some l))
    (hfresh : ∀ r ∈ db, r.id ≠ id1) :
    ∃ db1 m1,
      addMessage db id1 now1 sid c1 (some l) = some (db1, m1) ∧
      db1 = db ++ [m1] ∧
      m1 = MsgRow.mk id1 sid c1 now1 (getMaxSeq db sid + 1) (some l) ∧
      getMaxSeq db1 sid = getMaxSeq db sid + 1 ∧
      ∀ id2 now2 c2, addMessage db1 id2 now2 sid c2 (some l) = some (db1, m1) := by
  have hTruthy : localIdTruthy (some l) = true := by
    simp [localIdTruthy, hl]
  have hfind : db.find? (fun r => r.session_id == sid && r.local_id == some l) = none := by
    rw [List.find?_eq_none]
    intro r hr
    simp only [Bool.and_eq_true, beq_iff_eq]
    exact fun h => hnodup r hr h
  have hany_id : db.any (fun r => r.id == id1) = false := by
    cases ha : db.any (fun r => r.id == id1)
    · rfl
    · rw [List.any_eq_true] at ha
      obtain ⟨r, hr, hid⟩ := ha
      rw [beq_iff_eq] at hid
      exact absurd hid (hfresh r hr)
  have hany_dup : db.any (fun r => r.session_id == sid && r.local_id == some l) = false := by
    cases ha : db.any (fun r => r.session_id == sid && r.local_id == some l)
    · rfl
    · rw [List.any_eq_true] at ha
      obtain ⟨r, hr, hid⟩ := ha
      simp only [Bool.and_eq_true, beq_iff_eq] at hid
      exact absurd hid (hnodup r hr)
  set row : MsgRow := MsgRow.mk id1 sid c1 now1 (getMaxSeq db sid + 1) (some l) with hrow
  have hfirst : addMessage db id1 now1 sid c1 (some l) = some (db ++ [row], row) := by
    unfold addMessage
    rw [hTruthy, if_pos rfl, hfind]
    simp only [hany_id, hany_dup]
    rw [List.find?_append]
    rw [List.find?_eq_none.2 (fun r hr => by
      simp only [beq_iff_eq]
      exact hfresh r hr)]
    simp [List.find?]
  refine ⟨db ++ [row], row, hfirst, rfl, rfl, ?_, ?_⟩
  · rw [getMaxSeq_append_row db sid row rfl]
    simp
  · intro id2 now2 c2
    unfold addMessage
    rw [hTruthy, if_pos rfl, List.find?_append, hfind]
    simp [List.find?]

/-- C6 witness: inserting into the empty table with local id "L" and
replaying the insert returns the original row both times. -/
theorem addMessage_idempotent_witness :
    (("L" : String) ≠ "") ∧
    ∃ db1 m1,
      addMessage ([] : List MsgRow) "id1" 10 "S" "c1" (some "L") = some (db1, m1) ∧
      db1 = [] ++ [m1] ∧
      m1 = MsgRow.mk "id1" "S" "c1" 10 (getMaxSeq [] "S" + 1) (some "L") ∧
      getMaxSeq db1 "S" = getMaxSeq [] "S" + 1 ∧
      ∀ id2 now2 c2, addMessage db1 id2 now2 "S" c2 (some "L") = some (db1, m1) :=
  ⟨by decide,
    addMessage_idempotent [] "S" "L" (by decide) "id1" 10 "c1" (by simp) (by simp)⟩

theorem shiftTo_session_id (toId : String) (k : Nat) (r : MsgRow) :
    (shiftTo toId k r).session_id = r.session_id := by
  unfold shiftTo
  split <;> rfl

theorem shiftTo_local_id (toId : String) (k : Nat) (r : MsgRow) :
    (shiftTo toId k r).local_id = r.local_id := by
  unfold shiftTo
  split <;> rfl

theorem collidingLocalIds_map_shift (db : List MsgRow) (toId fromId : String) (k : Nat) :
    collidingLocalIds (db.map (shiftTo toId k)) toId fromId =
      collidingLocalIds db toId fromId := by
  unfold collidingLocalIds
  rw [List.filterMap_map]
  have h1 : ((fun r : MsgRow => if r.session_id = toId then r.local_id else none) ∘
      shiftTo toId k) = (fun r => if r.session_id = toId then r.local_id else none) := by
    funext r
    simp [Function.comp, shiftTo_session_id, shiftTo_local_id]
  rw [h1]
  congr 1
  funext lx
  rw [List.any_map]
  congr 1
  funext r
  simp [Function.comp, shiftTo_session_id, shiftTo_local_id]

theorem mem_collidingLocalIds (db : List MsgRow) (toId fromId : String) (lx : String) :
    lx ∈ collidingLocalIds db toId fromId ↔
      ((∃ r ∈ db, r.session_id = toId ∧ r.local_id = some lx) ∧
        (∃ r ∈ db, r.session_id = fromId ∧ r.local_id = some lx)) := by
  unfold collidingLocalIds
  simp only [List.mem_filter, List.mem_filterMap, List.any_eq_true, Bool.and_eq_true,
    beq_iff_eq]
  constructor
  · rintro ⟨⟨r, hr, hf⟩, r2, hr2, h2a, h2b⟩
    refine ⟨⟨r, hr, ?_⟩, r2, hr2, h2a, h2b⟩
    by_cases hs : r.session_id = toId
    · rw [if_pos hs] at hf
      exact ⟨hs, hf⟩
    · rw [if_neg hs] at hf
      exact absurd hf (by simp)
  · rintro ⟨⟨r, hr, hs, hl⟩, r2, hr2, h2a, h2b⟩
    exact ⟨⟨r, hr, by rw [if_pos hs]; exact hl⟩, r2, hr2, h2a, h2b⟩

theorem seqsOf_cons (r : MsgRow) (l : List MsgRow) (sid : String) :
    seqsOf (r :: l) sid =
      if r.session_id = sid then r.seq :: seqsOf l sid else seqsOf l sid := by
  unfold seqsOf
  rw [List.filter_cons]
  by_cases h : r.session_id = sid
  · rw [if_pos (by simp [h]), if_pos h]
    rfl
  · rw [if_neg (by simp [h]), if_neg h]

theorem seqsOf_map_relabel (g : MsgRow → MsgRow) (A B : String) (m : Nat)
    (hAB : A ≠ B)
    (hgA : ∀ r, r.session_id = A → (g r).session_id = B ∧ (g r).seq = r.seq)
    (hgB : ∀ r, r.session_id = B → (g r).session_id = B ∧ (g r).seq = r.seq + m)
    (hgO : ∀ r, r.session_id ≠ A → r.session_id ≠ B → g r = r) :
    ∀ xs : List MsgRow,
      (seqsOf (xs.map g) B).Perm (seqsOf xs A ++ (seqsOf xs B).map (fun s => s + m)) := by
  intro xs
  induction xs with
  | nil => simp [seqsOf]
  | cons r xs ih =>
    rw [List.map_cons, seqsOf_cons, seqsOf_cons, seqsOf_cons]
    by_cases hA : r.session_id = A
    · obtain ⟨hg1, hg2⟩ := hgA r hA
      rw [if_pos hg1, if_pos hA, if_neg (by rw [hA]; exact hAB), hg2]
      exact (ih.cons r.seq).trans (List.Perm.refl _)
    · by_cases hB : r.session_id = B
      · obtain ⟨hg1, hg2⟩ := hgB r hB
        rw [if_pos hg1, if_neg (by rw [hB]; exact fun h => hAB h.symm), if_pos hB, hg2,
          List.map_cons]
        exact (ih.cons (r.seq + m)).trans List.perm_middle.symm
      · rw [hgO r hA hB, if_neg hB, if_neg hA, if_neg hB]
        exact ih

theorem mem_colliding_iff_anyB (db : List MsgRow) (A B : String) (r : MsgRow)
    (hr : r ∈ db) (hA : r.session_id = A) (l : String) (hl : r.local_id = some l) :
    l ∈ collidingLocalIds db B A ↔
      db.any (fun r2 => r2.session_id == B && r2.local_id == some l) = true := by
  rw [mem_collidingLocalIds, List.any_eq_true]
  simp only [Bool.and_eq_true, beq_iff_eq]
  constructor
  · rintro ⟨⟨r2, h2, h2s, h2l⟩, _⟩
    exact ⟨r2, h2, h2s, h2l⟩
  · rintro ⟨r2, h2, h2s, h2l⟩
    exact ⟨⟨r2, h2, h2s, h2l⟩, r, hr, hA, hl⟩

theorem length_filter_session_map (g : MsgRow → MsgRow)
    (hg : ∀ r, (g r).session_id = r.session_id) (sid : String) (xs : List MsgRow) :
    ((xs.map g).filter (fun r => r.session_id == sid)).length =
      (xs.filter (fun r => r.session_id == sid)).length := by
  induction xs with
  | nil => rfl
  | cons r xs ih =>
    simp only [List.map_cons, List.filter_cons, hg]
    cases h : (r.session_id == sid) <;> simp [h, ih]

/-- C1 (amended): merging distinct sessions A (gap-free seqs 1..m) and B
(gap-free seqs 1..n, both non-empty) moves A's messages under B with their
seq values 1..m unchanged and renumbers B's original messages upward by m, so
that B's originals occupy seq m+1..m+n and the union is gap-free 1..m+n;
local-id collisions are resolved by nulling A's colliding local ids, B's
copies being kept; the reported counters are {moved: m, oldMaxSeq: m,
newMaxSeq: n}; rows of other sessions are untouched. -/
theorem mergeSessionMessages_prepend_renumbering
    (db : List MsgRow) (A B : String) (m n : Nat)
    (hAB : A ≠ B) (hm : 1 ≤ m) (hn : 1 ≤ n)
    (hA : (seqsOf db A).Perm (List.range' 1 m))
    (hB : (seqsOf db B).Perm (List.range' 1 n)) :
    mergeSessionMessages db A B = (db.map (mergeRelabel db A B m), m, m, n)
    ∧ (seqsOf (db.map (mergeRelabel db A B m)) B).Perm (List.range' 1 (m + n)) := by
  have hMA : getMaxSeq db A = m := getMaxSeq_of_perm db A m hm hA
  have hMB : getMaxSeq db B = n := getMaxSeq_of_perm db B n hn hB
  constructor
  · simp only [mergeSessionMessages]
    rw [if_neg hAB, hMA, hMB, if_pos (by omega : n > 0 ∧ m > 0),
      collidingLocalIds_map_shift]
    have hdb2 : ∀ xs : List MsgRow,
        (if (collidingLocalIds db B A).isEmpty then xs
          else xs.map (fun r =>
            if r.session_id == A &&
                (match r.local_id with
                 | some l => (collidingLocalIds db B A).contains l
                 | none => false) then { r with local_id := none } else r))
        = xs.map (fun r =>
            if r.session_id == A &&
                (match r.local_id with
                 | some l => (collidingLocalIds db B A).contains l
                 | none => false) then { r with local_id := none } else r) := by
      intro xs
      cases hC : (collidingLocalIds db B A).isEmpty
      · rfl
      · rw [List.isEmpty_iff] at hC
        rw [if_pos rfl]
        refine ((List.map_congr_left ?_).trans (List.map_id xs)).symm
        intro r _
        rw [hC]
        cases r.local_id <;> simp
    rw [hdb2]
    refine congrArg₂ Prod.mk ?_ (congrArg₂ Prod.mk ?_ rfl)
    · rw [List.map_map, List.map_map]
      apply List.map_congr_left
      intro r hr
      simp only [Function.comp]
      by_cases hsA : r.session_id = A
      · have hshift : shiftTo B m r = r := by
          unfold shiftTo
          rw [if_neg (fun h => hAB (hsA.symm.trans h))]
        rw [hshift]
        unfold mergeRelabel
        cases hl : r.local_id with
        | none => simp [hsA, hl]
        | some l =>
          have hcolmem := mem_colliding_iff_anyB db A B r hr hsA l hl
          cases hany : db.any (fun r2 => r2.session_id == B && r2.local_id == some l) with
          | false =>
            rw [hany] at hcolmem
            simp [hsA, hl, hany, contains_iff_mem_str, hcolmem]
          | true =>
            rw [hany] at hcolmem
            simp [hsA, hl, hany, contains_iff_mem_str, hcolmem]
      · by_cases hsB : r.session_id = B
        · have hshift : shiftTo B m r = { r with seq := r.seq + m } := by
            unfold shiftTo
            rw [if_pos hsB]
          rw [hshift]
          unfold mergeRelabel
          simp [hsA, hsB, Ne.symm hAB]
        · have hshift : shiftTo B m r = r := by
            unfold shiftTo
            rw [if_neg hsB]
          rw [hshift]
          unfold mergeRelabel
          simp [hsA, hsB, Ne.symm hAB]
    · rw [List.map_map]
      refine (length_filter_session_map _ ?_ A db).trans ?_
      · intro r
        simp only [Function.comp]
        split
        · exact shiftTo_session_id B m r
        · exact shiftTo_session_id B m r
      · have hlen : (db.filter (fun r => r.session_id == A)).length
            = (seqsOf db A).length := by
          unfold seqsOf
          rw [List.length_map]
        rw [hlen, hA.length_eq, List.length_range']
  · have hperm := seqsOf_map_relabel (mergeRelabel db A B m) A B m hAB
      (fun r h => by unfold mergeRelabel; rw [if_pos h]; exact ⟨rfl, rfl⟩)
      (fun r h => by
        unfold mergeRelabel
        rw [if_neg (fun hA' => hAB (hA'.symm.trans h)), if_pos h]
        exact ⟨h, rfl⟩)
      (fun r h1 h2 => by unfold mergeRelabel; rw [if_neg h1, if_neg h2]) db
    have hmapr : (List.range' 1 n).map (fun s => s + m) = List.range' (m + 1) n := by
      rw [show (fun s => s + m) = (fun s => m + s) from funext fun s => Nat.add_comm s m]
      exact List.map_add_range' m 1 n 1
    have happ : List.range' 1 m ++ List.range' (m + 1) n = List.range' 1 (m + n) := by
      have h := List.range'_append 1 m n 1
      rw [Nat.one_mul, Nat.add_comm 1 m, Nat.add_comm n m] at h
      exact h
    have heq : List.range' 1 m ++ (List.range' 1 n).map (fun s => s + m)
        = List.range' 1 (m + n) := by
      rw [hmapr]
      exact happ
    exact hperm.trans ((hA.append (hB.map _)).trans (heq ▸ List.Perm.refl _))

/-- C1 witness: one message in each session with a colliding local id "L";
after the merge A's row keeps seq 1 (local id nulled), B's row moves to
seq 2 (local id kept), and the counters are {moved: 1, oldMaxSeq: 1,
newMaxSeq: 1}. -/
theorem mergeSessionMessages_prepend_renumbering_witness :
    (seqsOf [MsgRow.mk "a1" "A" "c" 0 1 (some "L"),
      MsgRow.mk "b1" "B" "c" 0 1 (some "L")] "A").Perm (List.range' 1 1)
    ∧ (seqsOf [MsgRow.mk "a1" "A" "c" 0 1 (some "L"),
      MsgRow.mk "b1" "B" "c" 0 1 (some "L")] "B").Perm (List.range' 1 1)
    ∧ (mergeSessionMessages [MsgRow.mk "a1" "A" "c" 0 1 (some "L"),
        MsgRow.mk "b1" "B" "c" 0 1 (some "L")] "A" "B"
        = ([MsgRow.mk "a1" "A" "c" 0 1 (some "L"),
            MsgRow.mk "b1" "B" "c" 0 1 (some "L")].map
            (mergeRelabel [MsgRow.mk "a1" "A" "c" 0 1 (some "L"),
              MsgRow.mk "b1" "B" "c" 0 1 (some "L")] "A" "B" 1), 1, 1, 1)
       ∧ (seqsOf ([MsgRow.mk "a1" "A" "c" 0 1 (some "L"),
            MsgRow.mk "b1" "B" "c" 0 1 (some "L")].map
            (mergeRelabel [MsgRow.mk "a1" "A" "c" 0 1 (some "L"),
              MsgRow.mk "b1" "B" "c" 0 1 (some "L")] "A" "B" 1)) "B").Perm
          (List.range' 1 2)) :=
  ⟨by decide, by decide,
    mergeSessionMessages_prepend_renumbering _ "A" "B" 1 1 (by decide) (by decide)
      (by decide) (by decide) (by decide)⟩

/-! ## Notification hub lemmas -/

theorem alookup_nil {α : Type} (k : String) : alookup ([] : List (String × α)) k = none :=
  rfl

theorem find?_key_eq_none {α : Type} (m : List (String × α)) (k : String)
    (h : m.any (fun p => p.1 == k) = false) :
    m.find? (fun p => p.1 == k) = none := by
  rw [List.find?_eq_none]
  intro p hp hpk
  have : m.any (fun p => p.1 == k) = true := List.any_eq_true.2 ⟨p, hp, hpk⟩
  rw [h] at this
  exact absurd this (by simp)

theorem alookup_replace {α : Type} (m : List (String × α)) (k : String) (v : α)
    (h : m.any (fun p => p.1 == k) = true) :
    alookup (m.map (fun p => if p.1 == k then (k, v) else p)) k = some v := by
  induction m with
  | nil => simp at h
  | cons p m ih =>
    simp only [List.any_cons, Bool.or_eq_true] at h
    rw [List.map_cons]
    cases hp : (p.1 == k) with
    | true =>
      rw [if_pos rfl]
      unfold alookup
      rw [List.find?_cons_of_pos _ (by simp)]
      rfl
    | false =>
      rw [if_neg (by simp)]
      have hm : m.any (fun p => p.1 == k) = true := by
        rcases h with h | h
        · rw [hp] at h
          exact absurd h (by simp)
        · exact h
      unfold alookup
      rw [List.find?_cons_of_neg _ (by simp [hp])]
      have := ih hm
      unfold alookup at this
      exact this

theorem alookup_ainsert_self {α : Type} (m : List (String × α)) (k : String) (v : α) :
    alookup (ainsert m k v) k = some v := by
  unfold ainsert
  cases h : m.any (fun p => p.1 == k) with
  | false =>
    rw [if_neg (by simp)]
    unfold alookup
    rw [List.find?_append, find?_key_eq_none m k h]
    simp [List.find?]
  | true =>
    rw [if_pos rfl]
    exact alookup_replace m k v h

theorem alookup_aerase_self {α : Type} (m : List (String × α)) (k : String) :
    alookup (aerase m k) k = none := by
  unfold alookup aerase
  have hn : List.find? (fun p => p.1 == k) (m.filter (fun p => ¬ p.1 == k)) = none := by
    rw [List.find?_eq_none]
    intro p hp hpk
    rw [List.mem_filter] at hp
    have h2 := hp.2
    rw [hpk] at h2
    exact absurd h2 (by simp)
  rw [hn]
  rfl

theorem ainsert_nil {α : Type} (k : String) (v : α) : ainsert [] k v = [(k, v)] := by
  simp [ainsert]

theorem ainsert_singleton_self {α : Type} (k : String) (v w : α) :
    ainsert [(k, v)] k w = [(k, w)] := by
  simp [ainsert]

theorem clearSessionState_lookups (σ : HubState) (sid : String) :
    alookup (clearSessionState σ sid).lastKnownRequests sid = none ∧
    alookup (clearSessionState σ sid).notificationDebounce sid = none ∧
    alookup (clearSessionState σ sid).lastReadyNotificationAt sid = none :=
  ⟨alookup_aerase_self _ _, alookup_aerase_self _ _, alookup_aerase_self _ _⟩

theorem fireDue_empty (engine : Engine) (ch : List String) (upTo : Nat) (σ : HubState)
    (h : σ.notificationDebounce = []) :
    fireDue engine ch upTo σ = (σ, []) := by
  obtain ⟨lk, nd, lr⟩ := σ
  simp only at h
  subst h
  simp [fireDue]

theorem fireDue_not_due (engine : Engine) (ch : List String) (upTo : Nat) (σ : HubState)
    (sid : String) (ft : Nat) (h : σ.notificationDebounce = [(sid, ft)])
    (hft : ¬ ft ≤ upTo) :
    fireDue engine ch upTo σ = (σ, []) := by
  obtain ⟨lk, nd, lr⟩ := σ
  simp only at h
  subst h
  simp [fireDue, hft]
  omega

theorem fireDue_due_singleton (engine : Engine) (ch : List String) (upTo : Nat)
    (σ : HubState) (sid : String) (ft : Nat) (s : SessionV)
    (h : σ.notificationDebounce = [(sid, ft)]) (hft : ft ≤ upTo)
    (hf : engine ft sid = some s) (ha : s.active = true) :
    fireDue engine ch upTo σ =
      ({ σ with notificationDebounce := [] },
        ch.map (fun c => Notif.mk ft c NKind.permission s)) := by
  obtain ⟨lk, nd, lr⟩ := σ
  simp only at h
  subst h
  simp [fireDue, fireTimer, hft, hf, ha]

theorem stepEvent_upd_active (engine : Engine) (ch : List String)
    (dms cms t : Nat) (sid : String) (σ : HubState) (s : SessionV) (e : SyncEvent)
    (hsid : sid ≠ "") (hf : engine t sid = some s) (ha : s.active = true)
    (he : e.type = "session-updated" ∨ e.type = "session-added")
    (hes : e.sessionId = some sid) :
    stepEvent engine ch dms cms t e σ =
      (checkForPermissionNotification dms t s σ, []) := by
  unfold stepEvent
  rw [if_pos ⟨he, by simp [hes, sidTruthy, hsid]⟩]
  rw [hes]
  simp only [Option.getD_some]
  rw [hf]
  simp [ha]

theorem stepEvent_upd_gone (engine : Engine) (ch : List String)
    (dms cms t : Nat) (sid : String) (σ : HubState) (e : SyncEvent)
    (hsid : sid ≠ "")
    (he : e.type = "session-updated" ∨ e.type = "session-added")
    (hes : e.sessionId = some sid)
    (hgone : engine t sid = none ∨ ∃ s, engine t sid = some s ∧ s.active = false) :
    stepEvent engine ch dms cms t e σ = (clearSessionState σ sid, []) := by
  unfold stepEvent
  rw [if_pos ⟨he, by simp [hes, sidTruthy, hsid]⟩]
  rw [hes]
  simp only [Option.getD_some]
  rcases hgone with h | ⟨s, hs, hsa⟩
  · rw [h]
  · rw [hs]
    simp [hsa]

theorem stepEvent_removed (engine : Engine) (ch : List String)
    (dms cms t : Nat) (sid : String) (σ : HubState) (e : SyncEvent)
    (hsid : sid ≠ "") (he : e.type = "session-removed")
    (hes : e.sessionId = some sid) :
    stepEvent engine ch dms cms t e σ = (clearSessionState σ sid, []) := by
  unfold stepEvent
  rw [if_neg (by rw [he]; rintro ⟨h | h, _⟩ <;> simp at h)]
  rw [if_pos ⟨he, by simp [hes, sidTruthy, hsid]⟩]
  rw [hes]
  simp

theorem checkPerm_no_requests (dms t : Nat) (s : SessionV) (σ : HubState)
    (h : sessionRequests s = none) :
    checkForPermissionNotification dms t s σ = σ := by
  unfold checkForPermissionNotification
  rw [h]

theorem checkPerm_new_requests (dms t : Nat) (s : SessionV) (σ : HubState)
    (L : List String) (h : sessionRequests s = some L)
    (hnew : ∃ id ∈ L, ¬ id ∈ (alookup σ.lastKnownRequests s.id).getD []) :
    checkForPermissionNotification dms t s σ =
      { σ with lastKnownRequests := ainsert σ.lastKnownRequests s.id L,
               notificationDebounce := ainsert σ.notificationDebounce s.id (t + dms) } := by
  simp only [checkForPermissionNotification, h]
  have hb : (L.any fun rid => ¬ memb ((alookup σ.lastKnownRequests s.id).getD []) rid)
      = true := by
    rw [List.any_eq_true]
    obtain ⟨id, hidL, hidnot⟩ := hnew
    refine ⟨id, hidL, ?_⟩
    simp only [memb, List.any_eq_true, beq_iff_eq, decide_eq_true_eq]
    rintro ⟨y, hy, rfl⟩
    exact hidnot hy
  rw [if_pos hb]

theorem checkPerm_old_requests (dms t : Nat) (s : SessionV) (σ : HubState)
    (L : List String) (h : sessionRequests s = some L)
    (hold : ∀ id ∈ L, id ∈ (alookup σ.lastKnownRequests s.id).getD []) :
    checkForPermissionNotification dms t s σ =
      { σ with lastKnownRequests := ainsert σ.lastKnownRequests s.id L } := by
  simp only [checkForPermissionNotification, h]
  have hb : (L.any fun rid => ¬ memb ((alookup σ.lastKnownRequests s.id).getD []) rid)
      = false := by
    cases hb : (L.any fun rid => ¬ memb ((alookup σ.lastKnownRequests s.id).getD []) rid)
    · rfl
    · rw [List.any_eq_true] at hb
      obtain ⟨id, hidL, hidn⟩ := hb
      simp only [memb, List.any_eq_true, beq_iff_eq, decide_eq_true_eq] at hidn
      exact absurd ⟨id, hold id hidL, rfl⟩ hidn
  rw [if_neg (by rw [hb]; simp)]

theorem stepEvent_ready_fire (engine : Engine) (ch : List String)
    (dms cms t : Nat) (sid : String) (σ : HubState) (s : SessionV)
    (hsid : sid ≠ "") (hf : engine t sid = some s) (ha : s.active = true)
    (hc : cms ≤ t - (alookup σ.lastReadyNotificationAt sid).getD 0) :
    stepEvent engine ch dms cms t (readyEvent sid) σ =
      ({ σ with lastReadyNotificationAt := ainsert σ.lastReadyNotificationAt sid t },
        ch.map (fun c => Notif.mk t c NKind.ready s)) := by
  unfold stepEvent
  rw [if_neg (by rintro ⟨h | h, _⟩ <;> simp [readyEvent] at h)]
  rw [if_neg (by rintro ⟨h, _⟩; simp [readyEvent] at h)]
  rw [if_pos ⟨rfl, by simp [readyEvent, sidTruthy, hsid]⟩]
  rw [if_pos (show extractMessageEventTypeServer (readyEvent sid) = some "ready" from rfl)]
  show sendReadyNotificationStep engine ch cms t sid σ =
    ({ σ with lastReadyNotificationAt := ainsert σ.lastReadyNotificationAt sid t },
      ch.map (fun c => Notif.mk t c NKind.ready s))
  unfold sendReadyNotificationStep
  rw [hf]
  simp only [ha, not_true_eq_false, if_false]
  rw [if_neg (not_lt.mpr hc)]

theorem stepEvent_ready_drop (engine : Engine) (ch : List String)
    (dms cms t : Nat) (sid : String) (σ : HubState) (s : SessionV)
    (hsid : sid ≠ "") (hf : engine t sid = some s) (ha : s.active = true)
    (hc : t - (alookup σ.lastReadyNotificationAt sid).getD 0 < cms) :
    stepEvent engine ch dms cms t (readyEvent sid) σ = (σ, []) := by
  unfold stepEvent
  rw [if_neg (by rintro ⟨h | h, _⟩ <;> simp [readyEvent] at h)]
  rw [if_neg (by rintro ⟨h, _⟩; simp [readyEvent] at h)]
  rw [if_pos ⟨rfl, by simp [readyEvent, sidTruthy, hsid]⟩]
  rw [if_pos (show extractMessageEventTypeServer (readyEvent sid) = some "ready" from rfl)]
  show sendReadyNotificationStep engine ch cms t sid σ = (σ, [])
  unfold sendReadyNotificationStep
  rw [hf]
  simp only [ha, not_true_eq_false, if_false]
  rw [if_pos hc]

/-- C3: a `message-received` event parsing to "ready" on an active session
invokes `sendReady` once per channel exactly when at least `readyCooldownMs`
have elapsed since the session's recorded last ready notification (the new
timestamp being recorded in the same step, before any dispatch), and is
dropped with no state change otherwise; concretely, with cooldown 20 started
at epoch B ≥ 20, ready events at B, B+5 and B+25 produce exactly the two
dispatches at B and B+25. -/
theorem ready_cooldown :
    (∀ (engine : Engine) (ch : List String) (dms cms t : Nat) (sid : String)
      (σ : HubState) (s : SessionV),
      sid ≠ "" → engine t sid = some s → s.active = true →
      (cms ≤ t - (alookup σ.lastReadyNotificationAt sid).getD 0 →
        stepEvent engine ch dms cms t (readyEvent sid) σ =
          ({ σ with lastReadyNotificationAt := ainsert σ.lastReadyNotificationAt sid t },
            ch.map (fun c => Notif.mk t c NKind.ready s))) ∧
      (t - (alookup σ.lastReadyNotificationAt sid).getD 0 < cms →
        stepEvent engine ch dms cms t (readyEvent sid) σ = (σ, [])))
    ∧ (∀ (engine : Engine) (ch : List String) (dms B : Nat) (sid : String) (s : SessionV),
      sid ≠ "" → 20 ≤ B → (∀ t, engine t sid = some s) → s.active = true →
      (runEvents engine ch dms 20 (B + 30)
          [(B, readyEvent sid), (B + 5, readyEvent sid), (B + 25, readyEvent sid)]
          HubState.initial).2
        = ch.map (fun c => Notif.mk B c NKind.ready s)
          ++ ch.map (fun c => Notif.mk (B + 25) c NKind.ready s)) := by
  constructor
  · intro engine ch dms cms t sid σ s hsid hf ha
    exact ⟨fun hc => stepEvent_ready_fire engine ch dms cms t sid σ s hsid hf ha hc,
      fun hc => stepEvent_ready_drop engine ch dms cms t sid σ s hsid hf ha hc⟩
  · intro engine ch dms B sid s hsid hB hs ha
    have hstep1 : stepEvent engine ch dms 20 B (readyEvent sid) HubState.initial =
        ((⟨[], [], [(sid, B)]⟩ : HubState), ch.map (fun c => Notif.mk B c NKind.ready s)) := by
      rw [stepEvent_ready_fire engine ch dms 20 B sid HubState.initial s hsid (hs B) ha
        (by simp [HubState.initial, alookup]; omega)]
      simp [HubState.initial, ainsert_nil]
    have hlook : alookup ([(sid, B)] : List (String × Nat)) sid = some B := by
      simp [alookup, List.find?]
    have hstep2 : stepEvent engine ch dms 20 (B + 5) (readyEvent sid)
        (⟨[], [], [(sid, B)]⟩ : HubState) = ((⟨[], [], [(sid, B)]⟩ : HubState), []) := by
      rw [stepEvent_ready_drop engine ch dms 20 (B + 5) sid _ s hsid (hs (B + 5)) ha
        (by simp only [hlook, Option.getD_some]; omega)]
    have hstep3 : stepEvent engine ch dms 20 (B + 25) (readyEvent sid)
        (⟨[], [], [(sid, B)]⟩ : HubState) =
        ((⟨[], [], [(sid, B + 25)]⟩ : HubState),
          ch.map (fun c => Notif.mk (B + 25) c NKind.ready s)) := by
      rw [stepEvent_ready_fire engine ch dms 20 (B + 25) sid _ s hsid (hs (B + 25)) ha
        (by simp only [hlook, Option.getD_some]; omega)]
      simp [ainsert_singleton_self]
    simp only [runEvents]
    rw [fireDue_empty engine ch B HubState.initial rfl]
    simp only
    rw [hstep1]
    simp only
    rw [fireDue_empty engine ch (B + 5) _ rfl]
    simp only
    rw [hstep2]
    simp only
    rw [fireDue_empty engine ch (B + 25) _ rfl]
    simp only
    rw [hstep3]
    simp only
    rw [fireDue_empty engine ch (B + 30) _ rfl]
    simp

/-- C3 witness: cooldown 20, epoch 100, one channel — the three-event
scenario dispatches exactly at 100 and 125. -/
theorem ready_cooldown_witness :
    (("s1" : String) ≠ "") ∧ (20 ≤ 100) ∧
    (runEvents
        (fun _ sid => if sid = "s1" then some (SessionV.mk "s1" true none) else none)
        ["push"] 5 20 (100 + 30)
        [(100, readyEvent "s1"), (100 + 5, readyEvent "s1"), (100 + 25, readyEvent "s1")]
        HubState.initial).2
      = ["push"].map (fun c => Notif.mk 100 c NKind.ready (SessionV.mk "s1" true none))
        ++ ["push"].map (fun c => Notif.mk (100 + 25) c NKind.ready (SessionV.mk "s1" true none)) :=
  ⟨by decide, by decide,
    ready_cooldown.2
      (fun _ sid => if sid = "s1" then some (SessionV.mk "s1" true none) else none)
      ["push"] 5 100 "s1" (SessionV.mk "s1" true none) (by decide) (by decide)
      (fun _ => rfl) rfl⟩

theorem lastTime_cons (p t : Nat) (rest : List Nat) :
    lastTime p (t :: rest) = lastTime t rest := by
  cases rest <;> simp [lastTime, List.getLast?]

theorem runEvents_burst_aux (engine : Engine) (ch : List String)
    (dms cms endTime : Nat) (sid : String) (hsid : sid ≠ "")
    (req : Nat → List String) :
    ∀ (rest : List Nat) (prev : Nat) (σ : HubState),
      σ.notificationDebounce = [(sid, prev + dms)] →
      alookup σ.lastKnownRequests sid = some (req prev) →
      (∀ t ∈ rest, engine t sid = some (SessionV.mk sid true (some (req t)))) →
      List.Chain (fun a b => a < b ∧ b < a + dms ∧ ∃ id ∈ req b, ¬ id ∈ req a) prev rest →
      lastTime prev rest + dms ≤ endTime →
      ∀ sF : SessionV, engine (lastTime prev rest + dms) sid = some sF →
        sF.active = true →
      (runEvents engine ch dms cms endTime
          (rest.map (fun t => (t, updEvent sid))) σ).2
        = ch.map (fun c => Notif.mk (lastTime prev rest + dms) c NKind.permission sF) := by
  intro rest
  induction rest with
  | nil =>
    intro prev σ hσd hσk _ _ hquiet sF hF hFa
    simp only [List.map_nil, runEvents]
    rw [fireDue_due_singleton engine ch endTime σ sid (prev + dms) sF hσd
      (by simpa [lastTime] using hquiet) (by simpa [lastTime] using hF) hFa]
    simp [lastTime]
  | cons t rest ih =>
    intro prev σ hσd hσk hfetch hchain hquiet sF hF hFa
    have hchain' := hchain
    cases hchain' with
    | cons hrel hrest =>
      obtain ⟨hlt, hwin, hnew⟩ := hrel
      simp only [List.map_cons, runEvents]
      rw [fireDue_not_due engine ch t σ sid (prev + dms) hσd (by omega)]
      simp only
      rw [stepEvent_upd_active engine ch dms cms t sid σ
        (SessionV.mk sid true (some (req t))) (updEvent sid) hsid
        (hfetch t (by simp)) rfl (Or.inl rfl) rfl]
      simp only
      rw [checkPerm_new_requests dms t (SessionV.mk sid true (some (req t))) σ (req t) rfl
        (by simpa [hσk] using hnew)]
      rw [lastTime_cons]
      rw [ih t _ (by simp [hσd, ainsert_singleton_self]) (by simp [alookup_ainsert_self])
        (fun u hu => hfetch u (by simp [hu])) hrest
        (by rwa [lastTime_cons] at hquiet) sF (by rwa [lastTime_cons] at hF) hFa]
      simp

/-- C2: starting from a fresh hub, a burst of session-updated events on an
active session, each introducing a request id unknown to the previously
recorded set and each arriving within the debounce window of its predecessor,
schedules a cancel-and-replace debounce timer of `permissionDebounceMs` and
yields exactly one `sendPermissionRequest` per channel, fired one debounce
interval after the last event of the burst and carrying the session state
re-fetched at fire time; and an event whose request ids are all already
recorded only refreshes the recorded set — no timer is started and nothing
is dispatched. -/
theorem permission_debounce_burst :
    (∀ (engine : Engine) (ch : List String) (dms cms endTime : Nat) (sid : String)
      (t1 : Nat) (rest : List Nat) (req : Nat → List String) (sF : SessionV),
      sid ≠ "" →
      (∀ t ∈ t1 :: rest, engine t sid = some (SessionV.mk sid true (some (req t)))) →
      req t1 ≠ [] →
      List.Chain (fun a b => a < b ∧ b < a + dms ∧ ∃ id ∈ req b, ¬ id ∈ req a) t1 rest →
      lastTime t1 rest + dms ≤ endTime →
      engine (lastTime t1 rest + dms) sid = some sF → sF.active = true →
      (runEvents engine ch dms cms endTime
          ((t1 :: rest).map (fun t => (t, updEvent sid))) HubState.initial).2
        = ch.map (fun c => Notif.mk (lastTime t1 rest + dms) c NKind.permission sF))
    ∧ (∀ (engine : Engine) (ch : List String) (dms cms t : Nat) (sid : String)
        (σ : HubState) (s : SessionV) (L : List String),
        sid ≠ "" → engine t sid = some s → s.active = true → s.id = sid →
        sessionRequests s = some L →
        (∀ id ∈ L, id ∈ (alookup σ.lastKnownRequests sid).getD []) →
        stepEvent engine ch dms cms t (updEvent sid) σ
          = ({ σ with lastKnownRequests := ainsert σ.lastKnownRequests sid L }, [])) := by
  constructor
  · intro engine ch dms cms endTime sid t1 rest req sF hsid hfetch hfirst hchain hquiet hF hFa
    simp only [List.map_cons, runEvents]
    rw [fireDue_empty engine ch t1 HubState.initial rfl]
    simp only
    rw [stepEvent_upd_active engine ch dms cms t1 sid HubState.initial
      (SessionV.mk sid true (some (req t1))) (updEvent sid) hsid
      (hfetch t1 (by simp)) rfl (Or.inl rfl) rfl]
    simp only
    rw [checkPerm_new_requests dms t1 (SessionV.mk sid true (some (req t1)))
      HubState.initial (req t1) rfl
      (by
        obtain ⟨id, hid⟩ := List.exists_mem_of_ne_nil _ hfirst
        exact ⟨id, hid, by simp [HubState.initial, alookup_nil]⟩)]
    rw [runEvents_burst_aux engine ch dms cms endTime sid hsid req rest t1 _
      (by simp [HubState.initial, ainsert_nil])
      (by simp [HubState.initial, alookup_ainsert_self])
      (fun u hu => hfetch u (by simp [hu])) hchain hquiet sF hF hFa]
    simp
  · intro engine ch dms cms t sid σ s L hsid hf ha hid hreq hold
    rw [stepEvent_upd_active engine ch dms cms t sid σ s (updEvent sid) hsid hf ha
      (Or.inl rfl) rfl]
    rw [checkPerm_old_requests dms t s σ L hreq (by rw [hid]; exact hold)]
    rw [hid]

/-- C2 witness: debounce 5, events at t=0 (req1) and t=3 (req1, req2) on one
channel — exactly one permission dispatch, at t=8, carrying the state fetched
at t=8. -/
theorem permission_debounce_burst_witness :
    (("s1" : String) ≠ "") ∧
    (∀ t ∈ [0, 3],
      (fun (t : Nat) (sid : String) =>
        if sid = "s1" then
          some (SessionV.mk "s1" true
            (some (if 3 ≤ t then ["req1", "req2"] else ["req1"])))
        else none) t "s1"
        = some (SessionV.mk "s1" true
            (some ((fun t => if 3 ≤ t then ["req1", "req2"] else ["req1"]) t)))) ∧
    List.Chain (fun a b => a < b ∧ b < a + 5 ∧
      ∃ id ∈ (fun t => if 3 ≤ t then ["req1", "req2"] else ["req1"]) b,
        ¬ id ∈ (fun t => if 3 ≤ t then ["req1", "req2"] else ["req1"]) a) 0 [3] ∧
    (runEvents
        (fun (t : Nat) (sid : String) =>
          if sid = "s1" then
            some (SessionV.mk "s1" true
              (some (if 3 ≤ t then ["req1", "req2"] else ["req1"])))
          else none)
        ["push"] 5 5 20 ([0, 3].map (fun t => (t, updEvent "s1"))) HubState.initial).2
      = ["push"].map (fun c => Notif.mk (lastTime 0 [3] + 5) c NKind.permission
          (SessionV.mk "s1" true (some ["req1", "req2"]))) :=
  ⟨by decide, by decide,
    List.Chain.cons (by refine ⟨by decide, by decide, "req2", by decide, by decide⟩)
      List.Chain.nil,
    permission_debounce_burst.1
      (fun (t : Nat) (sid : String) =>
        if sid = "s1" then
          some (SessionV.mk "s1" true
            (some (if 3 ≤ t then ["req1", "req2"] else ["req1"])))
        else none)
      ["push"] 5 5 20 "s1" 0 [3]
      (fun t => if 3 ≤ t then ["req1", "req2"] else ["req1"])
      (SessionV.mk "s1" true (some ["req1", "req2"]))
      (by decide) (by decide)
      (by decide)
      (List.Chain.cons (by refine ⟨by decide, by decide, "req2", by decide, by decide⟩)
        List.Chain.nil)
      (by decide) (by decide) rfl⟩

/-- C4 counterexample: a session-updated event on an active session whose
`agentState` is null leaves the recorded request-id set untouched — the old
id "req1" is still recorded, and the entry is not replaced by the (empty)
current set as the claim demands. -/
theorem recorded_set_kept_when_requests_absent :
    (stepEvent
        (fun _ sid => if sid = "s1" then some (SessionV.mk "s1" true none) else none)
        ["push"] 5 5 7 (updEvent "s1")
        (HubState.mk [("s1", ["req1"])] [] [])).1.lastKnownRequests
      = [("s1", ["req1"])]
    ∧ ¬ (alookup (stepEvent
        (fun _ sid => if sid = "s1" then some (SessionV.mk "s1" true none) else none)
        ["push"] 5 5 7 (updEvent "s1")
        (HubState.mk [("s1", ["req1"])] [] [])).1.lastKnownRequests "s1"
      = some []) := by
  decide

/-- C4 (amended): on a session-added/updated event for an active session, the
recorded request-id set is replaced with the current set whenever
`agentState.requests` is present — including when it is the empty mapping —
but when `agentState` or its `requests` field is null/undefined the handler
returns early, leaving the whole hub state (including the stale recorded set)
untouched. -/
theorem recorded_set_replacement (engine : Engine) (ch : List String)
    (dms cms t : Nat) (sid : String) (σ : HubState) (s : SessionV) (e : SyncEvent)
    (hsid : sid ≠ "") (hf : engine t sid = some s) (ha : s.active = true)
    (hid : s.id = sid)
    (he : e.type = "session-updated" ∨ e.type = "session-added")
    (hes : e.sessionId = some sid) :
    (∀ L, sessionRequests s = some L →
      alookup (stepEvent engine ch dms cms t e σ).1.lastKnownRequests sid = some L)
    ∧ (sessionRequests s = none → stepEvent engine ch dms cms t e σ = (σ, [])) := by
  constructor
  · intro L hL
    rw [stepEvent_upd_active engine ch dms cms t sid σ s e hsid hf ha he hes]
    by_cases hnew : ∃ id ∈ L, ¬ id ∈ (alookup σ.lastKnownRequests s.id).getD []
    · rw [checkPerm_new_requests dms t s σ L hL hnew]
      simp only
      rw [hid, alookup_ainsert_self]
    · push_neg at hnew
      rw [checkPerm_old_requests dms t s σ L hL hnew]
      simp only
      rw [hid, alookup_ainsert_self]
  · intro hL
    rw [stepEvent_upd_active engine ch dms cms t sid σ s e hsid hf ha he hes,
      checkPerm_no_requests dms t s σ hL]

/-- C4 witness: an event carrying an empty request mapping replaces the stale
recorded set {req1} with the empty set. -/
theorem recorded_set_replacement_witness :
    (("s1" : String) ≠ "") ∧
    alookup (stepEvent
        (fun _ sid => if sid = "s1" then some (SessionV.mk "s1" true (some [])) else none)
        ["push"] 5 5 7 (updEvent "s1")
        (HubState.mk [("s1", ["req1"])] [] [])).1.lastKnownRequests "s1"
      = some [] :=
  ⟨by decide,
    (recorded_set_replacement
      (fun _ sid => if sid = "s1" then some (SessionV.mk "s1" true (some [])) else none)
      ["push"] 5 5 7 "s1" (HubState.mk [("s1", ["req1"])] [] [])
      (SessionV.mk "s1" true (some [])) (updEvent "s1")
      (by decide) rfl rfl rfl (Or.inl rfl) rfl).1 [] rfl⟩

theorem fireDue_emissions (engine : Engine) (ch : List String) (upTo : Nat)
    (σ : HubState) :
    ∀ nf ∈ (fireDue engine ch upTo σ).2,
      nf.session.active = true ∧ ∃ sid, engine nf.time sid = some nf.session := by
  intro nf hnf
  unfold fireDue at hnf
  simp only [List.mem_flatten, List.mem_map] at hnf
  obtain ⟨lst, ⟨p, hp, rfl⟩, hnl⟩ := hnf
  unfold fireTimer at hnl
  cases he : engine p.2 p.1 with
  | none =>
    simp [he] at hnl
  | some s =>
    cases ha : s.active with
    | false =>
      simp [he, ha] at hnl
    | true =>
      simp only [he, ha, if_true, List.mem_map] at hnl
      obtain ⟨c, _, rfl⟩ := hnl
      exact ⟨ha, p.1, he⟩

theorem stepEvent_emissions (engine : Engine) (ch : List String)
    (dms cms t : Nat) (e : SyncEvent) (σ : HubState) :
    ∀ nf ∈ (stepEvent engine ch dms cms t e σ).2,
      nf.session.active = true ∧ ∃ sid, engine nf.time sid = some nf.session := by
  intro nf hnf
  unfold stepEvent at hnf
  by_cases h1 : (e.type = "session-updated" ∨ e.type = "session-added") ∧
      sidTruthy e.sessionId
  · rw [if_pos h1] at hnf
    cases he : engine t (e.sessionId.getD "") with
    | none => simp [he] at hnf
    | some s =>
      cases ha : s.active with
      | false => simp [he, ha] at hnf
      | true => simp [he, ha] at hnf
  · rw [if_neg h1] at hnf
    by_cases h2 : e.type = "session-removed" ∧ sidTruthy e.sessionId
    · rw [if_pos h2] at hnf
      simp at hnf
    · rw [if_neg h2] at hnf
      by_cases h3 : e.type = "message-received" ∧ sidTruthy e.sessionId
      · rw [if_pos h3] at hnf
        by_cases h4 : extractMessageEventTypeServer e = some "ready"
        · rw [if_pos h4] at hnf
          unfold sendReadyNotificationStep at hnf
          cases he : engine t (e.sessionId.getD "") with
          | none => simp [he] at hnf
          | some s =>
            cases ha : s.active with
            | false => simp [he, ha] at hnf
            | true =>
              simp only [he, ha, not_true_eq_false, if_false] at hnf
              by_cases hc : t -
                  (alookup σ.lastReadyNotificationAt (e.sessionId.getD "")).getD 0 < cms
              · rw [if_pos hc] at hnf
                simp at hnf
              · rw [if_neg hc] at hnf
                simp only [List.mem_map] at hnf
                obtain ⟨c, _, rfl⟩ := hnf
                exact ⟨ha, e.sessionId.getD "", he⟩
        · rw [if_neg h4] at hnf
          simp at hnf
      · rw [if_neg h3] at hnf
        simp at hnf

theorem runEvents_emissions (engine : Engine) (ch : List String)
    (dms cms endTime : Nat) :
    ∀ (events : List (Nat × SyncEvent)) (σ : HubState),
      ∀ nf ∈ (runEvents engine ch dms cms endTime events σ).2,
        nf.session.active = true ∧ ∃ sid, engine nf.time sid = some nf.session := by
  intro events
  induction events with
  | nil =>
    intro σ nf hnf
    simp only [runEvents] at hnf
    exact fireDue_emissions engine ch endTime σ nf hnf
  | cons te rest ih =>
    obtain ⟨t, e⟩ := te
    intro σ nf hnf
    simp only [runEvents] at hnf
    rw [List.mem_append, List.mem_append] at hnf
    rcases hnf with (hnf | hnf) | hnf
    · exact fireDue_emissions engine ch t σ nf hnf
    · exact stepEvent_emissions engine ch dms cms t e _ nf hnf
    · exact ih _ nf hnf

/-- C5: (i) every channel invocation a hub run ever makes carries a session
that was re-fetched from the engine at dispatch time and was active then —
so no notification of either kind is ever invoked for a session that is
inactive (or missing) at that moment, whatever debounce timers or cooldown
records exist; (ii) a session-removed event, and (iii) a session-added or
session-updated event whose re-fetch finds the session missing or inactive,
emit nothing and clear all of the session's tracked hub state: its pending
debounce timer, its recorded request-id set and its last-ready timestamp. -/
theorem inactive_suppression_and_clearing :
    (∀ (engine : Engine) (ch : List String) (dms cms endTime : Nat)
      (events : List (Nat × SyncEvent)) (σ : HubState),
      ∀ nf ∈ (runEvents engine ch dms cms endTime events σ).2,
        nf.session.active = true ∧ ∃ sid, engine nf.time sid = some nf.session)
    ∧ (∀ (engine : Engine) (ch : List String) (dms cms t : Nat) (sid : String)
        (σ : HubState) (e : SyncEvent),
        sid ≠ "" → e.sessionId = some sid → e.type = "session-removed" →
        stepEvent engine ch dms cms t e σ = (clearSessionState σ sid, []) ∧
        alookup (clearSessionState σ sid).lastKnownRequests sid = none ∧
        alookup (clearSessionState σ sid).notificationDebounce sid = none ∧
        alookup (clearSessionState σ sid).lastReadyNotificationAt sid = none)
    ∧ (∀ (engine : Engine) (ch : List String) (dms cms t : Nat) (sid : String)
        (σ : HubState) (e : SyncEvent),
        sid ≠ "" → e.sessionId = some sid →
        (e.type = "session-updated" ∨ e.type = "session-added") →
        (engine t sid = none ∨ ∃ s, engine t sid = some s ∧ s.active = false) →
        stepEvent engine ch dms cms t e σ = (clearSessionState σ sid, []) ∧
        alookup (clearSessionState σ sid).lastKnownRequests sid = none ∧
        alookup (clearSessionState σ sid).notificationDebounce sid = none ∧
        alookup (clearSessionState σ sid).lastReadyNotificationAt sid = none) :=
  ⟨fun engine ch dms cms endTime events σ =>
      runEvents_emissions engine ch dms cms endTime events σ,
    fun engine ch dms cms t sid σ e hsid hes he =>
      ⟨stepEvent_removed engine ch dms cms t sid σ e hsid he hes,
        (clearSessionState_lookups σ sid).1, (clearSessionState_lookups σ sid).2.1,
        (clearSessionState_lookups σ sid).2.2⟩,
    fun engine ch dms cms t sid σ e hsid hes he hgone =>
      ⟨stepEvent_upd_gone engine ch dms cms t sid σ e hsid he hes hgone,
        (clearSessionState_lookups σ sid).1, (clearSessionState_lookups σ sid).2.1,
        (clearSessionState_lookups σ sid).2.2⟩⟩

/-- C5 witness: a session-removed event on a hub that tracks a recorded set,
a pending timer and a ready timestamp for that session emits nothing and
drops all three entries. -/
theorem inactive_suppression_and_clearing_witness :
    (("s1" : String) ≠ "") ∧
    (stepEvent (fun _ _ => none) ["push"] 5 5 7 (rmEvent "s1")
        (HubState.mk [("s1", ["req1"])] [("s1", 9)] [("s1", 3)])
      = (clearSessionState (HubState.mk [("s1", ["req1"])] [("s1", 9)] [("s1", 3)]) "s1",
          []) ∧
      alookup (clearSessionState
          (HubState.mk [("s1", ["req1"])] [("s1", 9)] [("s1", 3)]) "s1").lastKnownRequests
        "s1" = none ∧
      alookup (clearSessionState
          (HubState.mk [("s1", ["req1"])] [("s1", 9)] [("s1", 3)]) "s1").notificationDebounce
        "s1" = none ∧
      alookup (clearSessionState
          (HubState.mk [("s1", ["req1"])] [("s1", 9)] [("s1", 3)]) "s1").lastReadyNotificationAt
        "s1" = none) :=
  ⟨by decide,
    inactive_suppression_and_clearing.2.1 (fun _ _ => none) ["push"] 5 5 7 "s1"
      (HubState.mk [("s1", ["req1"])] [("s1", 9)] [("s1", 3)]) (rmEvent "s1")
      (by decide) rfl rfl⟩
